import Mathlib

/-!
A verification development for `solara/comm.py`, a diagnostic shim that wraps
the third-party `comm` library's channel constructor so that every channel
created through it is recorded, together with its creation stack trace, in a
process-wide registry (`orphan_comm_stacks`).

The embedding models Python object identity by an allocation counter, the
registry dictionary by an insertion-ordered association list with Python's
`d[k] = v` semantics, exceptions by `Except`, and the module's observable
behaviour after import by an explicit step function over event sequences.
-/

namespace Solara

/-- A single stack frame as seen by Python's `traceback` module: file name,
line number, function name, and the source line text. -/
structure Frame where
  filename : String
  lineno : Nat
  funcname : String
  srcline : String
deriving DecidableEq, Repr

/-- How `traceback.format_stack` renders one frame: a two-line entry of the
form listing the file, line and function, then the indented source line. -/
def format_frame (f : Frame) : String :=
  "  File \x22" ++ f.filename ++ "\x22, line " ++ toString f.lineno ++ ", in "
    ++ f.funcname ++ "\n    " ++ f.srcline ++ "\n"

/-- Line 18 of the source: the string `"".join(traceback.format_stack())`
produces for a given call stack. -/
def format_stack (frames : List Frame) : String :=
  String.join (frames.map format_frame)

/-- The class a channel object was constructed from: the shim's no-op subclass
`DummyComm`, or a plain base channel made by other means. -/
inductive CommClass where
  | dummyComm
  | baseComm
deriving DecidableEq, Repr

/-- A channel object identity. Python object identity is modelled by an
allocation number; the class records which constructor produced the object. -/
structure Instance where
  cls : CommClass
  id : Nat
deriving DecidableEq, Repr

/-- A Python exception, as raised by the underlying `BaseComm` constructor. -/
structure PyError where
  msg : String
deriving DecidableEq, Repr

/-- Outcome of the external `comm.base_comm.BaseComm.__init__` call on a given
argument tuple: the constructor either accepts the arguments or raises. -/
inductive CtorOutcome where
  | accepts
  | raises (e : PyError)
deriving DecidableEq, Repr

/-- The module-level mutable state: the `orphan_comm_stacks` dictionary
(line 9), modelled as an insertion-ordered association list, together with the
allocator supplying fresh object identities. -/
structure ModuleState where
  orphan_comm_stacks : List (Instance × String)
  nextId : Nat
deriving DecidableEq, Repr

/-- The module state just after line 9 executes: `orphan_comm_stacks = {}`. -/
def initState : ModuleState :=
  { orphan_comm_stacks := [], nextId := 0 }

/-- The keys of the dictionary, in insertion order. -/
def dictKeys (d : List (Instance × String)) : List Instance :=
  d.map Prod.fst

/-- Python's `d[k] = v`: overwrite in place when `k` is already a key,
append at the end otherwise. -/
def dictInsert (d : List (Instance × String)) (k : Instance) (v : String) :
    List (Instance × String) :=
  if k ∈ dictKeys d then
    d.map (fun p => if p.1 = k then (k, v) else p)
  else
    d ++ [(k, v)]

/-- Python's `d.get(k)`: the value stored under key `k`, if any. -/
def dictGet (d : List (Instance × String)) (k : Instance) : Option String :=
  match d with
  | [] => none
  | p :: rest => if p.1 = k then some p.2 else dictGet rest k

/-- Lines 13-14 of the source: `DummyComm.publish_msg` accepts any message
type, payload, metadata, ancillary buffers and extra keyword arguments,
does nothing (`pass`), returns `None`, and leaves the module state alone. -/
def publish_msg {α β : Type} (_self : Instance) (_msg_type : α)
    (_data _metadata _buffers : Option β) (_keys : List (String × β))
    (s : ModuleState) : ModuleState × Option β :=
  (s, none)

/-- Lines 16-20 of the source: construct a `DummyComm`; on success capture the
formatted current call stack, record it in `orphan_comm_stacks` under the new
instance, and return the instance. A constructor error propagates unchanged
and the module state is left exactly as it was. -/
def create_dummy_comm (ctor : CtorOutcome) (stack : List Frame)
    (s : ModuleState) : ModuleState × Except PyError Instance :=
  match ctor with
  | .raises e => (s, .error e)
  | .accepts =>
      let comm : Instance := { cls := .dummyComm, id := s.nextId }
      let stacktrace : String := format_stack stack
      ({ orphan_comm_stacks := dictInsert s.orphan_comm_stacks comm stacktrace,
         nextId := s.nextId + 1 },
       .ok comm)

/-- One observable operation against the shim after import: a call to the
patched factory (with the outcome of the underlying constructor and the call
stack active at the call), or a `publish_msg` call on some instance. -/
inductive Event where
  | create (ctor : CtorOutcome) (stack : List Frame)
  | publish (self : Instance) (msg_type : String)
      (data metadata buffers : Option String) (keys : List (String × String))
deriving Repr

/-- The module state after executing one event. -/
def step (s : ModuleState) : Event → ModuleState
  | .create ctor stack => (create_dummy_comm ctor stack s).1
  | .publish self mt d md b ks => (publish_msg self mt d md b ks s).1

/-- The module state after executing a sequence of events in order. -/
def run (s : ModuleState) (es : List Event) : ModuleState :=
  es.foldl step s

/-- The instance an event returns, when it is a creation that succeeds. -/
def retInstance (s : ModuleState) : Event → Option Instance
  | .create ctor stack => (create_dummy_comm ctor stack s).2.toOption
  | .publish _ _ _ _ _ _ => none

/-- The instances returned by the successful creations of an event sequence,
executed from the given state. -/
def createdFrom (s : ModuleState) : List Event → List Instance
  | [] => []
  | e :: es => (retInstance s e).toList ++ createdFrom (step s e) es

/-- For each successful creation of an event sequence, in execution order,
the instance that very call returned paired with the formatted call stack
that very call captured. -/
def createdPairs (s : ModuleState) : List Event → List (Instance × String)
  | [] => []
  | e :: es =>
      (match e with
       | .create ctor stack =>
           (match (create_dummy_comm ctor stack s).2 with
            | .ok inst => [(inst, format_stack stack)]
            | .error _ => [])
       | .publish _ _ _ _ _ _ => []) ++ createdPairs (step s e) es

/-- Whether an event is a factory call whose underlying constructor accepts. -/
def isSuccessfulCreate : Event → Bool
  | .create .accepts _ => true
  | _ => false

/-- Whether an event carries a non-empty call stack; every real factory call
has at least its own frame on the stack. -/
def stackNonempty : Event → Bool
  | .create _ stack => !stack.isEmpty
  | _ => true

/-- Every key recorded so far was allocated before the current allocation
mark; this holds in every reachable state and makes each new instance a fresh
dictionary key. -/
def fresh (s : ModuleState) : Prop :=
  ∀ p ∈ s.orphan_comm_stacks, p.1.id < s.nextId

/-- Where the third-party library's global `create_comm` slot points. -/
inductive CreateCommSlot where
  | libraryDefault
  | patchedCreateDummyComm
deriving DecidableEq, Repr

/-- The slice of the third-party `comm` module the shim touches: its global
channel-creation entry point. -/
structure CommLib where
  create_comm : CreateCommSlot
deriving DecidableEq, Repr

/-- The observable result of importing `solara.comm`: the (possibly patched)
library module, the registry, and whether the `DummyComm` class that got
defined carries a `publish_msg` method. -/
structure ImportedModule where
  comm : Option CommLib
  orphan_comm_stacks : List (Instance × String)
  dummyCommHasPublishMsg : Bool
deriving DecidableEq, Repr

/-- Lines 4-26 of the module body: try to import the library (`comm = None`
on `ImportError`), define `orphan_comm_stacks = {}` unconditionally, then
either define the no-op subclass and patch `comm.create_comm` (library
present) or define the bare placeholder class (library absent). -/
def loadSolaraComm (lib : Option CommLib) : ImportedModule :=
  let comm : Option CommLib := lib
  let orphan_comm_stacks : List (Instance × String) := []
  match comm with
  | some c =>
      { comm := some { c with create_comm := .patchedCreateDummyComm },
        orphan_comm_stacks := orphan_comm_stacks,
        dummyCommHasPublishMsg := true }
  | none =>
      { comm := none,
        orphan_comm_stacks := orphan_comm_stacks,
        dummyCommHasPublishMsg := false }

/-- The library's own default channel construction, external to the shim:
it builds a plain base channel object and never touches the registry. -/
def libraryDefaultCreateComm (ctor : CtorOutcome) (_stack : List Frame)
    (s : ModuleState) : ModuleState × Except PyError Instance :=
  match ctor with
  | .raises e => (s, .error e)
  | .accepts =>
      ({ s with nextId := s.nextId + 1 },
       .ok { cls := .baseComm, id := s.nextId })

/-- A call through the library's global `create_comm` entry point dispatches
on whatever the slot currently holds. -/
def callCreateComm (lib : CommLib) (ctor : CtorOutcome) (stack : List Frame)
    (s : ModuleState) : ModuleState × Except PyError Instance :=
  match lib.create_comm with
  | .patchedCreateDummyComm => create_dummy_comm ctor stack s
  | .libraryDefault => libraryDefaultCreateComm ctor stack s

/-- Lines 25-26 of the source: the placeholder `DummyComm` defined when the
library is absent. It has no fields and no methods. -/
structure FallbackDummyComm where
deriving DecidableEq, Repr

/-- The only operation fallback mode offers: instantiating the placeholder. -/
inductive FallbackEvent where
  | instantiateDummyComm
deriving DecidableEq, Repr

/-- Executing a fallback-mode operation never touches the registry. -/
def fallbackStep (d : List (Instance × String)) :
    FallbackEvent → List (Instance × String)
  | .instantiateDummyComm => d

/-- The registry after a sequence of fallback-mode operations. -/
def fallbackRun (d : List (Instance × String)) (es : List FallbackEvent) :
    List (Instance × String) :=
  es.foldl fallbackStep d

/-- A concrete stack frame used to exercise the definitions on closed inputs. -/
def frame0 : Frame :=
  { filename := "app.py", lineno := 3, funcname := "main",
    srcline := "comm.create_comm()" }

/-- Inserting a binding makes the bound pair a member of the dictionary,
whether the key was present before (overwrite) or not (append). -/
theorem mem_dictInsert_self (d : List (Instance × String)) (k : Instance)
    (v : String) : (k, v) ∈ dictInsert d k v := by
  unfold dictInsert
  by_cases h : k ∈ dictKeys d
  · rw [if_pos h]
    rcases List.mem_map.mp h with ⟨p, hp, hpk⟩
    refine List.mem_map.mpr ⟨p, hp, ?_⟩
    simp [hpk]
  · rw [if_neg h]
    simp

/-- Inserting a fresh key appends the binding at the end. -/
theorem dictInsert_of_not_mem {d : List (Instance × String)} {k : Instance}
    (v : String) (h : k ∉ dictKeys d) : dictInsert d k v = d ++ [(k, v)] := by
  unfold dictInsert
  rw [if_neg h]

/-- Every pair of an updated dictionary is an old pair or the new binding. -/
theorem mem_of_mem_dictInsert {d : List (Instance × String)} {k : Instance}
    {v : String} {p : Instance × String} (h : p ∈ dictInsert d k v) :
    p ∈ d ∨ p = (k, v) := by
  unfold dictInsert at h
  by_cases hk : k ∈ dictKeys d
  · rw [if_pos hk] at h
    rcases List.mem_map.mp h with ⟨q, hq, hqe⟩
    by_cases hq1 : q.1 = k
    · right
      rw [← hqe]
      simp [hq1]
    · left
      rw [← hqe]
      simpa [hq1] using hq
  · rw [if_neg hk] at h
    rcases List.mem_append.mp h with h1 | h1
    · exact Or.inl h1
    · right
      simpa using h1

/-- The initial module state satisfies the freshness invariant. -/
theorem fresh_initState : fresh initState := by
  intro p hp
  simp [initState] at hp

/-- Under freshness, the next allocated instance is not yet a key. -/
theorem not_mem_dictKeys_of_fresh {s : ModuleState} (h : fresh s) :
    ({ cls := CommClass.dummyComm, id := s.nextId } : Instance) ∉
      dictKeys s.orphan_comm_stacks := by
  intro hmem
  rcases List.mem_map.mp hmem with ⟨p, hp, hpk⟩
  have hlt := h p hp
  rw [hpk] at hlt
  simp at hlt

/-- A publish event leaves the module state untouched. -/
theorem step_publish (s : ModuleState) (self : Instance) (mt : String)
    (d md b : Option String) (ks : List (String × String)) :
    step s (.publish self mt d md b ks) = s := rfl

/-- A factory call whose constructor raises leaves the module state untouched. -/
theorem step_create_raises (s : ModuleState) (e : PyError)
    (stack : List Frame) : step s (.create (.raises e) stack) = s := rfl

/-- Under freshness, a successful factory call appends exactly one binding. -/
theorem step_create_accepts {s : ModuleState} (h : fresh s)
    (stack : List Frame) :
    step s (.create .accepts stack) =
      { orphan_comm_stacks := s.orphan_comm_stacks ++
          [({ cls := .dummyComm, id := s.nextId }, format_stack stack)],
        nextId := s.nextId + 1 } := by
  simp [step, create_dummy_comm,
    dictInsert_of_not_mem _ (not_mem_dictKeys_of_fresh h)]

/-- Every step preserves the freshness invariant. -/
theorem fresh_step {s : ModuleState} (h : fresh s) (e : Event) :
    fresh (step s e) := by
  cases e with
  | publish self mt d md b ks => exact h
  | create ctor stack =>
      cases ctor with
      | raises err => exact h
      | accepts =>
          rw [step_create_accepts h]
          intro p hp
          rcases List.mem_append.mp hp with h1 | h1
          · exact Nat.lt_succ_of_lt (h p h1)
          · simp at h1
            rw [h1]
            simp

/-- Every run preserves the freshness invariant. -/
theorem fresh_run {s : ModuleState} (h : fresh s) (es : List Event) :
    fresh (run s es) := by
  induction es generalizing s with
  | nil => exact h
  | cons e es ih => exact ih (fresh_step h e)

/-- After a run from any fresh state, the registry's keys are the old keys
followed by exactly the instances returned by the successful creations. -/
theorem dictKeys_run (es : List Event) :
    ∀ s : ModuleState, fresh s →
      dictKeys (run s es).orphan_comm_stacks =
        dictKeys s.orphan_comm_stacks ++ createdFrom s es := by
  induction es with
  | nil =>
      intro s _
      simp [run, createdFrom]
  | cons e es ih =>
      intro s h
      have hrun : run s (e :: es) = run (step s e) es := rfl
      have hcre : createdFrom s (e :: es) =
          (retInstance s e).toList ++ createdFrom (step s e) es := rfl
      rw [hrun, hcre, ih (step s e) (fresh_step h e)]
      cases e with
      | publish self mt d md b ks =>
          simp [retInstance, step_publish]
      | create ctor stack =>
          cases ctor with
          | raises err =>
              simp [retInstance, create_dummy_comm, step_create_raises,
                Except.toOption]
          | accepts =>
              rw [step_create_accepts h]
              simp [retInstance, create_dummy_comm, dictKeys, Except.toOption]

/-- After a run from any fresh state, the registry grew by exactly the number
of successful creations. -/
theorem length_run (es : List Event) :
    ∀ s : ModuleState, fresh s →
      (run s es).orphan_comm_stacks.length =
        s.orphan_comm_stacks.length +
          (es.filter isSuccessfulCreate).length := by
  induction es with
  | nil =>
      intro s _
      simp [run]
  | cons e es ih =>
      intro s h
      have hrun : run s (e :: es) = run (step s e) es := rfl
      rw [hrun, ih (step s e) (fresh_step h e)]
      cases e with
      | publish self mt d md b ks =>
          simp [step_publish, isSuccessfulCreate, List.filter_cons]
      | create ctor stack =>
          cases ctor with
          | raises err =>
              simp [step_create_raises, isSuccessfulCreate, List.filter_cons]
          | accepts =>
              rw [step_create_accepts h]
              simp [isSuccessfulCreate, List.filter_cons]
              omega

/-- Every registry value after a run either was already present or is the
formatted stack of one of the run's successful creations. -/
theorem values_run (es : List Event) :
    ∀ s : ModuleState, fresh s →
      ∀ p ∈ (run s es).orphan_comm_stacks,
        p ∈ s.orphan_comm_stacks ∨
          ∃ stack : List Frame,
            Event.create .accepts stack ∈ es ∧ p.2 = format_stack stack := by
  induction es with
  | nil =>
      intro s _ p hp
      exact Or.inl hp
  | cons e es ih =>
      intro s hf p hp
      have hp2 := ih (step s e) (fresh_step hf e) p hp
      rcases hp2 with hmem | ⟨stack, hst, hval⟩
      · cases e with
        | publish self mt d md b ks => exact Or.inl hmem
        | create ctor stack0 =>
            cases ctor with
            | raises err => exact Or.inl hmem
            | accepts =>
                rw [step_create_accepts hf] at hmem
                rcases List.mem_append.mp hmem with h1 | h1
                · exact Or.inl h1
                · right
                  refine ⟨stack0, List.mem_cons_self _ _, ?_⟩
                  simp at h1
                  rw [h1]
      · exact Or.inr ⟨stack, List.mem_cons_of_mem e hst, hval⟩

/-- After a run from any fresh state, the registry is the old registry
followed by, creation for creation in execution order, the pair of the
instance each successful factory call returned and the formatted stack that
same call captured. -/
theorem registry_run (es : List Event) :
    ∀ s : ModuleState, fresh s →
      (run s es).orphan_comm_stacks =
        s.orphan_comm_stacks ++ createdPairs s es := by
  induction es with
  | nil =>
      intro s _
      simp [run, createdPairs]
  | cons e es ih =>
      intro s h
      have hrun : run s (e :: es) = run (step s e) es := rfl
      rw [hrun, ih (step s e) (fresh_step h e)]
      cases e with
      | publish self mt d md b ks =>
          simp [createdPairs, step_publish]
      | create ctor stack =>
          cases ctor with
          | raises err =>
              simp [createdPairs, create_dummy_comm, step_create_raises]
          | accepts =>
              rw [step_create_accepts h]
              simp [createdPairs, create_dummy_comm]
              rw [step_create_accepts h]

/-- Each recorded pair originates from a creation event of the sequence whose
stack formats to exactly the recorded value. -/
theorem createdPairs_origin (es : List Event) :
    ∀ s : ModuleState, ∀ p ∈ createdPairs s es,
      ∃ stack : List Frame,
        Event.create .accepts stack ∈ es ∧ p.2 = format_stack stack := by
  induction es with
  | nil =>
      intro s p hp
      simp [createdPairs] at hp
  | cons e es ih =>
      intro s p hp
      cases e with
      | publish self mt d md b ks =>
          simp only [createdPairs, List.nil_append] at hp
          rcases ih _ p hp with ⟨stack, hst, hval⟩
          exact ⟨stack, List.mem_cons_of_mem _ hst, hval⟩
      | create ctor stack0 =>
          cases ctor with
          | raises err =>
              simp only [createdPairs, create_dummy_comm,
                List.nil_append] at hp
              rcases ih _ p hp with ⟨stack, hst, hval⟩
              exact ⟨stack, List.mem_cons_of_mem _ hst, hval⟩
          | accepts =>
              simp only [createdPairs, create_dummy_comm,
                List.singleton_append] at hp
              rcases List.mem_cons.mp hp with h1 | h1
              · exact ⟨stack0, List.mem_cons_self _ _, by rw [h1]⟩
              · rcases ih _ p h1 with ⟨stack, hst, hval⟩
                exact ⟨stack, List.mem_cons_of_mem _ hst, hval⟩

/-- A lookup that succeeds keeps its answer when the dictionary is extended. -/
theorem dictGet_append_of_some {d : List (Instance × String)} {k : Instance}
    {v : String} (h : dictGet d k = some v)
    (d2 : List (Instance × String)) : dictGet (d ++ d2) k = some v := by
  induction d with
  | nil => simp [dictGet] at h
  | cons p rest ih =>
      simp only [List.cons_append, dictGet] at h ⊢
      by_cases hp : p.1 = k
      · rw [if_pos hp] at h ⊢
        exact h
      · rw [if_neg hp] at h ⊢
        exact ih h

/-- One step never changes the answer of a lookup that already succeeds. -/
theorem dictGet_step {s : ModuleState} (hf : fresh s) (e : Event)
    {k : Instance} {v : String}
    (h : dictGet s.orphan_comm_stacks k = some v) :
    dictGet (step s e).orphan_comm_stacks k = some v := by
  cases e with
  | publish self mt d md b ks => exact h
  | create ctor stack =>
      cases ctor with
      | raises err => exact h
      | accepts =>
          rw [step_create_accepts hf]
          exact dictGet_append_of_some h _

/-- A whole run never changes the answer of a lookup that already succeeds. -/
theorem dictGet_run {s : ModuleState} (hf : fresh s) (es : List Event)
    {k : Instance} {v : String}
    (h : dictGet s.orphan_comm_stacks k = some v) :
    dictGet (run s es).orphan_comm_stacks k = some v := by
  induction es generalizing s with
  | nil => exact h
  | cons e es ih => exact ih (fresh_step hf e) (dictGet_step hf e h)

/-- Folding string concatenation never shortens the accumulator. -/
theorem length_foldl_append (l : List String) :
    ∀ acc : String,
      acc.length ≤ (l.foldl (fun r s => r ++ s) acc).length := by
  induction l with
  | nil =>
      intro acc
      exact Nat.le_refl _
  | cons x xs ih =>
      intro acc
      calc acc.length ≤ (acc ++ x).length := by
            rw [String.length_append]
            omega
        _ ≤ _ := ih (acc ++ x)

/-- A formatted frame is never the empty string. -/
theorem format_frame_length_pos (f : Frame) : 0 < (format_frame f).length := by
  have h8 : ("  File \x22" : String).length = 8 := rfl
  simp only [format_frame, String.length_append]
  omega

/-- The formatted stack of at least one frame is at least one frame long. -/
theorem format_stack_length_pos (f : Frame) (rest : List Frame) :
    0 < (format_stack (f :: rest)).length := by
  have h4 : format_stack (f :: rest) =
      (rest.map format_frame).foldl (fun r s => r ++ s)
        ("" ++ format_frame f) := rfl
  have h2 := length_foldl_append (rest.map format_frame) ("" ++ format_frame f)
  have h3 : ("" ++ format_frame f).length = (format_frame f).length := by
    rw [String.length_append]
    simp
  have h5 := format_frame_length_pos f
  rw [h4]
  omega

/-- Formatting a non-empty call stack yields a non-empty string. -/
theorem format_stack_ne_empty {frames : List Frame} (h : frames ≠ []) :
    format_stack frames ≠ "" := by
  cases frames with
  | nil => exact absurd rfl h
  | cons f rest =>
      intro hcontra
      have h1 := format_stack_length_pos f rest
      rw [hcontra] at h1
      simp at h1

/-- No fallback-mode operation ever changes the registry. -/
theorem fallbackRun_eq (d : List (Instance × String))
    (es : List FallbackEvent) : fallbackRun d es = d := by
  induction es with
  | nil => rfl
  | cons e es ih =>
      cases e
      exact ih

/-- Claim C1: a call to the patched factory whose underlying constructor
accepts the arguments constructs a channel instance of the no-op variant
`DummyComm`, records the formatted current call stack under that exact
instance in `orphan_comm_stacks`, and returns that same instance. -/
theorem create_registers_and_returns (stack : List Frame) (s : ModuleState) :
    ∃ inst : Instance,
      (create_dummy_comm .accepts stack s).2 = .ok inst ∧
      inst.cls = .dummyComm ∧
      (inst, format_stack stack) ∈
        (create_dummy_comm .accepts stack s).1.orphan_comm_stacks := by
  refine ⟨{ cls := .dummyComm, id := s.nextId }, rfl, rfl, ?_⟩
  exact mem_dictInsert_self s.orphan_comm_stacks _ _

/-- Claim C2: at every state reachable from module initialization, an
instance is a key of `orphan_comm_stacks` exactly when it was returned by a
successful call to the patched factory; no other operation adds keys. -/
theorem registry_keys_iff_created (es : List Event) (inst : Instance) :
    inst ∈ dictKeys (run initState es).orphan_comm_stacks ↔
      inst ∈ createdFrom initState es := by
  rw [dictKeys_run es initState fresh_initState]
  simp [initState, dictKeys]

/-- Claim C3: `publish_msg` on any instance, with any message type, payload,
metadata, buffers and extra keyword arguments, is total (never raises),
returns `None`, and leaves the module state, registry included, unchanged. -/
theorem publish_msg_noop {α β : Type} (self : Instance) (mt : α)
    (d md b : Option β) (ks : List (String × β)) (s : ModuleState) :
    publish_msg self mt d md b ks s = (s, none) := rfl

/-- Claim C4: a sequence of N successful factory calls starting from the
empty registry leaves exactly N entries in `orphan_comm_stacks`. -/
theorem registry_size_after_creations (es : List Event)
    (h : ∀ e ∈ es, isSuccessfulCreate e = true) :
    (run initState es).orphan_comm_stacks.length = es.length := by
  rw [length_run es initState fresh_initState, List.filter_eq_self.mpr h]
  simp [initState]

/-- Witness for claim C4 at two concrete successful creations. -/
theorem registry_size_after_creations_witness :
    (∀ e ∈ [Event.create .accepts [frame0], Event.create .accepts [frame0]],
      isSuccessfulCreate e = true) ∧
    (run initState
        [Event.create .accepts [frame0], Event.create .accepts [frame0]]
      ).orphan_comm_stacks.length = 2 :=
  ⟨by decide, registry_size_after_creations _ (by decide)⟩

/-- Claim C5: when the underlying constructor raises, the patched factory
propagates that very error unchanged and the module state, registry
included, stays exactly as it was. -/
theorem create_error_propagates (e : PyError) (stack : List Frame)
    (s : ModuleState) :
    create_dummy_comm (.raises e) stack s = (s, .error e) := rfl

/-- Claim C6: with the messaging library absent, the module keeps no library
handle to patch, defines `DummyComm` as an instantiable placeholder without a
`publish_msg` method, and no fallback-mode operation ever inserts into the
registry, which stays empty. -/
theorem fallback_placeholder_spec :
    (loadSolaraComm none).comm = none ∧
    (loadSolaraComm none).dummyCommHasPublishMsg = false ∧
    Nonempty FallbackDummyComm ∧
    ∀ es : List FallbackEvent,
      fallbackRun (loadSolaraComm none).orphan_comm_stacks es = [] := by
  refine ⟨rfl, rfl, ⟨⟨⟩⟩, ?_⟩
  intro es
  exact fallbackRun_eq _ es

/-- Claim C7: after any reachable run, the registry is, entry for entry, the
list pairing the instance each successful factory call returned with the
formatted call stack captured by that very call, so each key's value is the
stack trace of its own creation; and every stored value is non-empty. -/
theorem registry_values_are_stacks (es : List Event)
    (h : ∀ e ∈ es, stackNonempty e = true) :
    (run initState es).orphan_comm_stacks = createdPairs initState es ∧
    ∀ p ∈ (run initState es).orphan_comm_stacks, p.2 ≠ "" := by
  have heq : (run initState es).orphan_comm_stacks =
      createdPairs initState es := by
    rw [registry_run es initState fresh_initState]
    simp [initState]
  refine ⟨heq, ?_⟩
  intro p hp
  rw [heq] at hp
  rcases createdPairs_origin es initState p hp with ⟨stack, hst, hval⟩
  have hne : stack ≠ [] := by
    intro hnil
    rw [hnil] at hst
    have hb := h _ hst
    simp [stackNonempty] at hb
  rw [hval]
  exact format_stack_ne_empty hne

/-- Witness for claim C7 at one concrete creation with a one-frame stack. -/
theorem registry_values_are_stacks_witness :
    (∀ e ∈ [Event.create .accepts [frame0]], stackNonempty e = true) ∧
    ((run initState [Event.create .accepts [frame0]]).orphan_comm_stacks =
        createdPairs initState [Event.create .accepts [frame0]] ∧
      ∀ p ∈ (run initState
          [Event.create .accepts [frame0]]).orphan_comm_stacks,
        p.2 ≠ "") :=
  ⟨by decide, registry_values_are_stacks _ (by decide)⟩

/-- Claim C8: with the library present, importing the module leaves the
library's `create_comm` slot pointing at the tracking factory, so every call
through that entry point dispatches to `create_dummy_comm`. -/
theorem module_patches_create_comm (l : CommLib) :
    ∃ c : CommLib,
      (loadSolaraComm (some l)).comm = some c ∧
      c.create_comm = .patchedCreateDummyComm ∧
      ∀ (ctor : CtorOutcome) (stack : List Frame) (s : ModuleState),
        callCreateComm c ctor stack s = create_dummy_comm ctor stack s := by
  refine ⟨{ create_comm := .patchedCreateDummyComm }, rfl, rfl, ?_⟩
  intro ctor stack s
  rfl

/-- Claim C9: a registry binding, once present, survives every later
sequence of operations with the same value; nothing removes or overwrites
it. -/
theorem registry_entries_persist (es0 es1 : List Event) (inst : Instance)
    (tr : String)
    (h : dictGet (run initState es0).orphan_comm_stacks inst = some tr) :
    dictGet (run initState (es0 ++ es1)).orphan_comm_stacks inst =
      some tr := by
  rw [run, List.foldl_append]
  exact dictGet_run (fresh_run fresh_initState es0) es1 h

/-- Witness for claim C9: an entry survives a later publish and creation. -/
theorem registry_entries_persist_witness :
    dictGet (run initState [Event.create .accepts [frame0]]).orphan_comm_stacks
        { cls := .dummyComm, id := 0 } = some (format_stack [frame0]) ∧
    dictGet (run initState ([Event.create .accepts [frame0]] ++
        [Event.publish { cls := .dummyComm, id := 0 } "msg" none none none [],
         Event.create .accepts [frame0]])).orphan_comm_stacks
        { cls := .dummyComm, id := 0 } = some (format_stack [frame0]) :=
  ⟨rfl, registry_entries_persist _ _ _ _ rfl⟩

/-- Claim C10: the registry is defined empty whether or not the library could
be imported, and in fallback mode it remains empty after any sequence of
fallback-mode operations. -/
theorem registry_unconditional_and_fallback_empty :
    (∀ lib : Option CommLib, (loadSolaraComm lib).orphan_comm_stacks = []) ∧
    ∀ es : List FallbackEvent,
      fallbackRun (loadSolaraComm none).orphan_comm_stacks es = [] := by
  constructor
  · intro lib
    cases lib <;> rfl
  · intro es
    exact fallbackRun_eq _ es

end Solara
